import Mathlib

/-!
Verification development for the `opera` Opus parser.

Shallow embedding of the core of the crate: the range (entropy) decoder
(`src/ec.rs`), the packet framing engine (`src/packet.rs`), and the Ogg
Opus container layer (`src/ogg.rs`).

Representation conventions:
* Rust byte buffers (`&[u8]`) are `List Nat`; a byte read coerces the
  entry into the u8 range with `% 256`, mirroring the fact that the
  source only ever stores values below 256 in those buffers.
* `usize`/`u32` arithmetic is `Nat`; `% 2 ^ 32` (resp. a masking `&&&`)
  is inserted exactly where the source's machine arithmetic can wrap.
  `usizeSub` models the wrapping subtraction of two `usize` values at
  the sites where the source can underflow.
* fallible Rust functions returning `Result` become `Except`; `Option`
  stays `Option`.
-/

namespace Opera

/-- Slice access `data.get(a..b)` / `data.get_res(a..b)`: `some` of the
half-open window when `a ≤ b ≤ len`, `none` otherwise. -/
def sliceGet (l : List Nat) (a b : Nat) : Option (List Nat) :=
  if a ≤ b ∧ b ≤ l.length then some ((l.drop a).take (b - a)) else none

/-- Slice access `data.get(a..)` / `data.get_res(a..)`. -/
def sliceFrom (l : List Nat) (a : Nat) : Option (List Nat) :=
  if a ≤ l.length then some (l.drop a) else none

/-- Little-endian `u16` read (`byteorder::LE::read_u16`) of a two-byte slice. -/
def le16 (l : List Nat) : Nat :=
  l.getD 0 0 % 256 + 256 * (l.getD 1 0 % 256)

/-- Little-endian `u32` read (`byteorder::LE::read_u32`) of a four-byte slice. -/
def le32 (l : List Nat) : Nat :=
  l.getD 0 0 % 256 + 256 * (l.getD 1 0 % 256) + 65536 * (l.getD 2 0 % 256)
    + 16777216 * (l.getD 3 0 % 256)

/-- Little-endian `i16` read (`byteorder::LE::read_i16`) of a two-byte slice. -/
def leI16 (l : List Nat) : Int :=
  let raw := l.getD 0 0 % 256 + 256 * (l.getD 1 0 % 256)
  if raw < 32768 then (raw : Int) else (raw : Int) - 65536

/-- Wrapping subtraction of two `usize` values (the release-mode semantics of
`a - b` on 64-bit `usize`); equals `a - b` whenever `b ≤ a < 2 ^ 64`. -/
def usizeSub (a b : Nat) : Nat :=
  (a + (2 ^ 64 - b % 2 ^ 64)) % 2 ^ 64

/-- Outcome of calling a Rust function that may panic instead of returning. -/
inductive PanicOr (α : Type) where
  | ok (a : α)
  | panicked
deriving DecidableEq

/-! ## Range decoder (`src/ec.rs`) -/

/-- `RangeDecoder` state: a borrowed buffer plus the five scalars of the
source struct (`index_ec`, `index_raw`, `range : u32`, `renorm`, `value : u32`). -/
structure RangeDecoder where
  data : List Nat
  index_ec : Nat
  index_raw : Nat
  range : Nat
  renorm : Bool
  value : Nat
deriving DecidableEq

/-- Upper renormalization bound, the source's `RANGE_MAX = 1 << 23`. -/
def RANGE_MAX : Nat := 1 <<< 23

/-- One iteration of the renormalization loop body (`RangeDecoder::normalize`,
RFC 6716 § 4.1.2.1): read the next byte (missing means 0), fold it and the
carried `renorm` bit into `value`, shift `range` up by one byte. -/
def normStep (d : RangeDecoder) : RangeDecoder :=
  let bn := (d.data.getD d.index_ec 0) % 256
  let sym := ((if d.renorm then 1 else 0) <<< 7) ||| (bn >>> 1)
  { d with
    index_ec := d.index_ec + 1
    range := (d.range <<< 8) % 2 ^ 32
    renorm := decide ((bn &&& 1) ≠ 0)
    value := ((d.value <<< 8) % 2 ^ 32 + (255 - sym)) &&& 0x7fffffff }

/-- Fuelled unfolding of the `while range <= RANGE_MAX` loop of
`RangeDecoder::normalize`. -/
def normalizeGo : Nat → RangeDecoder → RangeDecoder
  | 0, d => d
  | fuel + 1, d => if d.range ≤ RANGE_MAX then normalizeGo fuel (normStep d) else d

/-- `RangeDecoder::normalize`. Each loop iteration multiplies `range` by 256,
so from any nonzero `range` the source loop stops within three iterations and
fuel 3 reproduces it exactly; a zero `range` would never terminate in the
source either and is unreachable from `RangeDecoder::new`. -/
def RangeDecoder.normalize (d : RangeDecoder) : RangeDecoder :=
  normalizeGo 3 d

/-- The struct literal built inside `RangeDecoder::new` before the
constructor renormalizes: read byte 0 (missing means 0), set `range := 128`,
`renorm := (b0 & 1) != 0`, `value := 127 - (b0 >> 1)`, `index_ec := 1`. -/
def RangeDecoder.init (data : List Nat) : RangeDecoder :=
  let b0 := (data.headD 0) % 256
  { data := data
    index_ec := 1
    index_raw := 0
    range := 128
    renorm := decide ((b0 &&& 1) ≠ 0)
    value := 127 - (b0 >>> 1) }

/-- `RangeDecoder::new`: seed the scalars from the first byte and
renormalize. -/
def RangeDecoder.new (data : List Nat) : RangeDecoder :=
  (RangeDecoder.init data).normalize

/-- `RangeDecoder::decode_inner`: `u16::try_from(value / dividend)` succeeds
iff the quotient is below `2 ^ 16`; on success the source computes
`ft - min(ft, vdd.saturating_add(1))` in `u16`, on failure it returns 0. -/
def RangeDecoder.decode_inner (d : RangeDecoder) (ft dividend : Nat) : Nat :=
  let vdd := d.value / dividend
  if vdd < 65536 then ft - min ft (min (vdd + 1) 65535) else 0

/-- `RangeDecoder::decode`: `range.checked_div(ft)` (so `ft = 0` yields
`none`), filtered on a nonzero dividend, then `decode_inner`. The Rust
method takes `&self`, so it can never mutate the decoder state. -/
def RangeDecoder.decode (d : RangeDecoder) (ft : Nat) : Option Nat :=
  if ft = 0 then none
  else
    let dividend := d.range / ft
    if dividend = 0 then none else some (d.decode_inner ft dividend)

/-- `RangeDecoder::decode_bin`: `range.checked_shr(ftb)` (`none` once
`ftb ≥ 32` on `u32`), filtered on a nonzero dividend, zipped with
`1u16.checked_shl(ftb)` (`none` once `ftb ≥ 16` on `u16`), then
`decode_inner`. The Rust method takes `&self`, so it can never mutate the
decoder state. -/
def RangeDecoder.decode_bin (d : RangeDecoder) (ftb : Nat) : Option Nat :=
  if 32 ≤ ftb then none
  else
    let dividend := d.range >>> ftb
    if dividend = 0 then none
    else if 16 ≤ ftb then none
    else some (d.decode_inner (1 <<< ftb) dividend)

/-- `RangeDecoder::decode_raw`: the source body is a bare `unimplemented!()`
macro invocation, which unconditionally panics. -/
def RangeDecoder.decode_raw (_d : RangeDecoder) (_ft : Nat) : PanicOr Nat :=
  .panicked

/-- `RangeDecoder::decode_raw_bits`: the source body is a bare
`unimplemented!()` macro invocation, which unconditionally panics. -/
def RangeDecoder.decode_raw_bits (_d : RangeDecoder) (_bits : Nat) : PanicOr Nat :=
  .panicked

/-! ## Packet framing (`src/packet.rs`) -/

/-- Error taxonomy of `MalformedPacketError`. -/
inductive MalformedPacketError where
  | OverlongFrame
  | UnevenFrameLengths
  | FrameOverflow
  | ZeroFrames
  | OverlongDuration
deriving DecidableEq

/-- Error taxonomy of `ogg.rs`'s `OggOpusError`. -/
inductive OggOpusError where
  | UnexpectedEof
  | DenialOfService
  | BadPaging
  | BadMagic
  | UnsupportedVersion
  | InvalidChannelLayout
deriving DecidableEq

/-- The crate-level `Error` sum (`src/error.rs`); `BoundsError` maps to
`UnexpectedEof` at module boundary, `Ogg` is a container-level read error of
the external `ogg` crate with its payload elided. -/
inductive Error where
  | UnexpectedEof
  | MalformedPacket (e : MalformedPacketError)
  | OggOpus (e : OggOpusError)
  | Ogg
deriving DecidableEq

/-- Frame codec mode (`Mode`), per Table 2 of RFC 6716. -/
inductive Mode where
  | Silk
  | Hybrid
  | Celt
deriving DecidableEq

/-- Frame bandwidth (`Bandwidth`), per Table 2 of RFC 6716. -/
inductive Bandwidth where
  | Narrowband
  | MediumBand
  | Wideband
  | SuperWideband
  | Fullband
deriving DecidableEq

/-- Frame duration (`FrameSize`), per Table 2 of RFC 6716. -/
inductive FrameSize where
  | TwoPointFive
  | Five
  | Ten
  | Twenty
  | Fourty
  | Sixty
deriving DecidableEq

/-- `FrameSize::as_microseconds`. -/
def FrameSize.as_microseconds : FrameSize → Nat
  | .TwoPointFive => 2500
  | .Five => 5000
  | .Ten => 10000
  | .Twenty => 20000
  | .Fourty => 40000
  | .Sixty => 60000

/-- `Mode` from a config number (`From<ConfigNumber> for Mode`): 0..=11 Silk,
12..=15 Hybrid, 16..=31 Celt (config numbers are always below 32). -/
def Mode.ofConfig (c : Nat) : Mode :=
  if c ≤ 11 then .Silk else if c ≤ 15 then .Hybrid else .Celt

/-- `Bandwidth` from a config number (`From<ConfigNumber> for Bandwidth`):
the source arms are 0..=3 | 16..=19 NB, 4..=7 MB, 8..=11 | 20..=23 WB,
12 | 13 | 24..=27 SWB, 14 | 15 | 28..=31 FB. -/
def Bandwidth.ofConfig (c : Nat) : Bandwidth :=
  if c ≤ 3 then .Narrowband
  else if c ≤ 7 then .MediumBand
  else if c ≤ 11 then .Wideband
  else if c ≤ 13 then .SuperWideband
  else if c ≤ 15 then .Fullband
  else if c ≤ 19 then .Narrowband
  else if c ≤ 23 then .Wideband
  else if c ≤ 27 then .SuperWideband
  else .Fullband

/-- `FrameSize` from a config number (`From<ConfigNumber> for FrameSize`),
arm for arm from the source's Table 2 match (config numbers are below 32, so
the final catch-all is unreachable). -/
def FrameSize.ofConfig : Nat → FrameSize
  | 16 | 20 | 24 | 28 => .TwoPointFive
  | 17 | 21 | 25 | 29 => .Five
  | 0 | 4 | 8 | 12 | 14 | 18 | 22 | 26 | 30 => .Ten
  | 1 | 5 | 9 | 13 | 15 | 19 | 23 | 27 | 31 => .Twenty
  | 2 | 6 | 10 => .Fourty
  | 3 | 7 | 11 => .Sixty
  | _ => .Ten

/-- Decoded `Config`: mode, bandwidth and frame size of a config number. -/
structure Config where
  mode : Mode
  bandwidth : Bandwidth
  frame_size : FrameSize
deriving DecidableEq

/-- `Config` from a config number (`From<ConfigNumber> for Config`). -/
def Config.ofNumber (c : Nat) : Config :=
  { mode := Mode.ofConfig c
    bandwidth := Bandwidth.ofConfig c
    frame_size := FrameSize.ofConfig c }

/-- `ConfigNumber::from(u8)` as used by the TOC byte: the upper five bits,
`(toc & MASK_CONFIG) >> 3` with `MASK_CONFIG = 0b1111_1000`. -/
def configNumber (toc : Nat) : Nat :=
  (toc &&& 0b11111000) >>> 3

/-- `TableOfContents::stereo`: bit 2 of the TOC byte (`MASK_S = 0b0000_0100`). -/
def tocStereo (toc : Nat) : Bool :=
  decide ((toc &&& 0b00000100) ≠ 0)

/-- Frame layout codes (`FramesLayout`). -/
inductive FramesLayout where
  | One
  | TwoEqual
  | TwoDifferent
  | Arbitrary
deriving DecidableEq

/-- `TableOfContents::frames_layout`: the low two TOC bits
(`MASK_C = 0b0000_0011`), total because the masked value is below 4. -/
def tocFramesLayout (toc : Nat) : FramesLayout :=
  match toc &&& 0b00000011 with
  | 0 => .One
  | 1 => .TwoEqual
  | 2 => .TwoDifferent
  | _ => .Arbitrary

/-- `FrameCount::vbr`: bit 7 of the frame count byte (`MASK_V`). -/
def fcVbr (fc : Nat) : Bool :=
  decide ((fc &&& 0b10000000) ≠ 0)

/-- `FrameCount::padding`: bit 6 of the frame count byte (`MASK_P`). -/
def fcPadding (fc : Nat) : Bool :=
  decide ((fc &&& 0b01000000) ≠ 0)

/-- `FrameCount::frame_count`: the low six bits of the frame count byte
(`MASK_M`). -/
def fcFrameCount (fc : Nat) : Nat :=
  fc &&& 0b00111111

/-- A parsed `Frame`: the shared `Config`, the stereo flag, and the owned
byte payload. -/
structure Frame where
  config : Config
  stereo : Bool
  data : List Nat
deriving DecidableEq

/-- A parsed `Packet`: the shared `Config`, the stereo flag, and the ordered
frame payloads. -/
structure Packet where
  config : Config
  stereo : Bool
  frames : List (List Nat)
deriving DecidableEq

/-- `Packet::length_code` (RFC 6716 § 3.2.1): a first byte in 0..=251 is the
length itself (one byte consumed); 252..=255 pulls a second byte `B` and
yields `B * 4 + first` (two bytes consumed); a missing first byte is
`UnexpectedEof`, a missing second byte is a `BoundsError` mapped to
`UnexpectedEof`. -/
def Packet.length_code (data : List Nat) : Except Error (Nat × Nat) :=
  match data with
  | [] => .error .UnexpectedEof
  | b :: rest =>
    let b := b % 256
    if b ≤ 251 then .ok (b, 1)
    else
      match rest.head? with
      | none => .error .UnexpectedEof
      | some second => .ok ((second % 256) * 4 + b, 2)

/-- `Packet::framing`: in self-delimited mode read a length code and return
the remaining bytes after that last frame; in internally-framed mode derive
the length from the closure, rejecting `none` with `UnevenFrameLengths` and
any length above `Frame::IMPLICIT_LEN_MAX = 1275` with `OverlongFrame`. -/
def Packet.framing (data : List Nat) (self_delimited : Bool)
    (implicit : Nat → Option Nat) : Except Error (Nat × Nat × List Nat) :=
  if self_delimited then do
    let (len, offset) ← Packet.length_code data
    match sliceFrom data (offset + len) with
    | none => .error .UnexpectedEof
    | some rest => .ok (len, offset, rest)
  else
    match implicit data.length with
    | none => .error (.MalformedPacket .UnevenFrameLengths)
    | some len =>
      if len ≤ 1275 then .ok (len, 0, data)
      else .error (.MalformedPacket .OverlongFrame)

/-- Loop body of `Packet::padding`: every 0xFF byte adds 254 to the running
total; the first other byte `B` terminates, adding `B` and returning the
bytes after the terminator; running out of bytes is `UnexpectedEof`. -/
def paddingGo : List Nat → Nat → Except Error (Nat × List Nat)
  | [], _ => .error .UnexpectedEof
  | b :: rest, acc =>
    if b % 256 = 255 then paddingGo rest (acc + 254)
    else .ok (acc + b % 256, rest)

/-- `Packet::padding`. -/
def Packet.padding (data : List Nat) : Except Error (Nat × List Nat) :=
  paddingGo data 0

/-- `Packet::decode_code_0`: a single frame whose implicit length is the whole
remaining payload. -/
def Packet.decode_code_0 (config : Config) (stereo : Bool)
    (self_delimiting : Bool) (data : List Nat) :
    Except Error (Packet × List Nat) := do
  let (len, offset, more_data) ← Packet.framing data self_delimiting some
  match sliceGet data offset (offset + len) with
  | none => .error .UnexpectedEof
  | some fr => .ok ({ config := config, stereo := stereo, frames := [fr] }, more_data)

/-- `Packet::decode_code_1`: two equal frames; an odd internally-framed
payload is rejected through the implicit closure (`UnevenFrameLengths`). -/
def Packet.decode_code_1 (config : Config) (stereo : Bool)
    (self_delimiting : Bool) (data : List Nat) :
    Except Error (Packet × List Nat) := do
  let (len, offset, more_data) ←
    Packet.framing data self_delimiting
      (fun l => if l % 2 = 0 then some (l / 2) else none)
  let data := data.drop offset
  match sliceGet data 0 len, sliceGet data len (len * 2) with
  | some fr1, some fr2 =>
    .ok ({ config := config, stereo := stereo, frames := [fr1, fr2] }, more_data)
  | _, _ => .error .UnexpectedEof

/-- `Packet::decode_code_2`: an explicit length code for the first frame, the
second frame implicit (`len - len1`, a usize subtraction that can wrap); a
first frame longer than the rest of the packet is `FrameOverflow` when
internally framed and `UnexpectedEof` when self-delimited. The source slices
the trailing bytes with a plain (panicking) index `&more_data[end..]`,
modelled here by the truncating `List.drop`. -/
def Packet.decode_code_2 (config : Config) (stereo : Bool)
    (self_delimiting : Bool) (data : List Nat) :
    Except Error (Packet × List Nat) := do
  let (len1, offset1) ← Packet.length_code data
  let (len2, offset2, more_data) ←
    Packet.framing (data.drop offset1) self_delimiting
      (fun l => some (usizeSub l len1))
  let data := data.drop (offset1 + offset2)
  if len1 ≤ data.length then
    let e := len1 + len2
    match sliceGet data 0 len1, sliceGet data len1 e with
    | some fr1, some fr2 =>
      .ok ({ config := config, stereo := stereo, frames := [fr1, fr2] },
           more_data.drop e)
    | _, _ => .error .UnexpectedEof
  else if self_delimiting then .error .UnexpectedEof
  else .error (.MalformedPacket .FrameOverflow)

/-- First pass of `Packet::decode_code_3_vbr` (the `scan` over frame
indices): while self-delimiting or not yet at the last frame, read a length
code, advancing `offset` by its size and `total` by the length; the last
internally-framed frame gets `data.len() - total - offset - padding`
(usize subtractions that can wrap). Returns the lengths and the offset after
the length codes. The fuel counts the remaining frames, so the last frame is
reached exactly when it hits 1. -/
def vbrGo (self_delimiting : Bool) (data : List Nat) (padding : Nat) :
    Nat → Nat → Nat → Except Error (List Nat × Nat)
  | 0, offset, _ => .ok ([], offset)
  | fuel + 1, offset, total =>
    if self_delimiting ∨ 1 ≤ fuel then do
      let (len, lc_size) ← Packet.length_code (data.drop offset)
      let (rest, offEnd) ← vbrGo self_delimiting data padding fuel (offset + lc_size) (total + len)
      .ok (len :: rest, offEnd)
    else
      .ok ([usizeSub (usizeSub (usizeSub data.length total) offset) padding], offset)

/-- Second pass of `Packet::decode_code_3_vbr`: slice each frame of the given
length out of the payload, advancing the shared offset; a slice past the end
is a `BoundsError` mapped to `UnexpectedEof`. -/
def takeFrames (data : List Nat) : List Nat → Nat → Except Error (List (List Nat) × Nat)
  | [], offset => .ok ([], offset)
  | len :: rest, offset =>
    match sliceGet data offset (offset + len) with
    | none => .error .UnexpectedEof
    | some fr => do
      let (frs, offEnd) ← takeFrames data rest (offset + len)
      .ok (fr :: frs, offEnd)

/-- `Packet::decode_code_3_vbr`. -/
def Packet.decode_code_3_vbr (config : Config) (stereo : Bool)
    (self_delimiting : Bool) (data : List Nat) (frame_count padding : Nat) :
    Except Error (Packet × List Nat) := do
  let (lens, offset) ← vbrGo self_delimiting data padding frame_count 0 0
  let (frames, offEnd) ← takeFrames data lens offset
  match sliceFrom data (offEnd + padding) with
  | none => .error .UnexpectedEof
  | some trailing =>
    .ok ({ config := config, stereo := stereo, frames := frames }, trailing)

/-- Length-indexed frame extraction of `Packet::decode_code_3_cbr`:
frame `i` is `data[len * i .. len * (i + 1)]`. The fuel counts the remaining
frames, `i` the current index. -/
def cbrFrames (data : List Nat) (len : Nat) :
    Nat → Nat → Except Error (List (List Nat))
  | _, 0 => .ok []
  | i, fuel + 1 =>
    match sliceGet data (len * i) (len * (i + 1)) with
    | none => .error .UnexpectedEof
    | some fr => do
      let frs ← cbrFrames data len (i + 1) fuel
      .ok (fr :: frs)

/-- `Packet::decode_code_3_cbr`: self-delimited packets carry an explicit
shared frame length; internally-framed packets require the remaining payload
length (which still includes the trailing padding bytes) to divide evenly by
the frame count, rejecting the rest with `UnevenFrameLengths`. The trailing
slice starts at `len * frame_count + padding`. -/
def Packet.decode_code_3_cbr (config : Config) (stereo : Bool)
    (self_delimiting : Bool) (data : List Nat) (frame_count padding : Nat) :
    Except Error (Packet × List Nat) := do
  let (len, offset) ←
    if self_delimiting then Packet.length_code data
    else if data.length % frame_count = 0 then .ok (data.length / frame_count, 0)
    else .error (.MalformedPacket .UnevenFrameLengths)
  let data := data.drop offset
  let frames ← cbrFrames data len 0 frame_count
  match sliceFrom data (len * frame_count + padding) with
  | none => .error .UnexpectedEof
  | some trailing =>
    .ok ({ config := config, stereo := stereo, frames := frames }, trailing)

/-- `Packet::decode_code_3`: read the frame count byte, reject zero frames
and an overall duration above `DURATION_MAX = 120000` µs, consume the padding
size bytes when the padding bit is set, then dispatch VBR or CBR. -/
def Packet.decode_code_3 (config : Config) (stereo : Bool)
    (self_delimiting : Bool) (data : List Nat) :
    Except Error (Packet × List Nat) :=
  match data with
  | [] => .error .UnexpectedEof
  | fcByte :: rest =>
    let fc := fcByte % 256
    let frame_count := fcFrameCount fc
    let length_us := config.frame_size.as_microseconds
    if frame_count = 0 then .error (.MalformedPacket .ZeroFrames)
    else if 120000 < frame_count * length_us then
      .error (.MalformedPacket .OverlongDuration)
    else do
      let (padding, data) ←
        if fcPadding fc then Packet.padding rest else .ok (0, rest)
      if fcVbr fc then
        Packet.decode_code_3_vbr config stereo self_delimiting data frame_count padding
      else
        Packet.decode_code_3_cbr config stereo self_delimiting data frame_count padding

/-- `Packet::new_with_framing`: read the TOC byte and dispatch on the frame
layout code (`Packet::layout_function`). -/
def Packet.new_with_framing (data : List Nat) (self_delimiting : Bool) :
    Except Error (Packet × List Nat) :=
  match data with
  | [] => .error .UnexpectedEof
  | tocByte :: rest =>
    let toc := tocByte % 256
    let config := Config.ofNumber (configNumber toc)
    let stereo := tocStereo toc
    match tocFramesLayout toc with
    | .One => Packet.decode_code_0 config stereo self_delimiting rest
    | .TwoEqual => Packet.decode_code_1 config stereo self_delimiting rest
    | .TwoDifferent => Packet.decode_code_2 config stereo self_delimiting rest
    | .Arbitrary => Packet.decode_code_3 config stereo self_delimiting rest

/-- `Packet::new`: internally-framed parsing, discarding the trailing bytes. -/
def Packet.new (data : List Nat) : Except Error Packet :=
  (Packet.new_with_framing data false).map (fun pr => pr.1)

/-- `Packet::frames`: each stored payload becomes a `Frame` carrying the
packet's config and stereo flag, in order. -/
def Packet.framesList (p : Packet) : List Frame :=
  p.frames.map (fun d => { config := p.config, stereo := p.stereo, data := d })

/-- Loop of `Multistream::new` (the `scan` over stream indices): stream `i`
is parsed with self-delimited framing exactly when it is not the last one
(`i != streams - 1`), each packet consuming a prefix of the shared payload.
The fuel counts the remaining streams. -/
def multistreamGo (streams : Nat) : Nat → Nat → List Nat → Except Error (List Packet)
  | _, 0, _ => .ok []
  | i, fuel + 1, data => do
    let (packet, new_data) ← Packet.new_with_framing data (decide (i ≠ streams - 1))
    let packets ← multistreamGo streams (i + 1) fuel new_data
    .ok (packet :: packets)

/-- `Multistream::new`: parse `streams` consecutive packets out of one
container payload (the mapping table contributes only its stream count). -/
def Multistream.new (data : List Nat) (streams : Nat) : Except Error (List Packet) :=
  multistreamGo streams 0 streams data

/-- `Multistream::frames`: the source iterates
`packets.into_iter().rev().map(Packet::frames).flatten()` — the packet list
is reversed before flattening. -/
def Multistream.frames (packets : List Packet) : List Frame :=
  ((packets.reverse).map Packet.framesList).flatten

/-! ## Ogg Opus container layer (`src/ogg.rs`) -/

/-- RTP-style channel layouts (`RtpChannelLayout`). -/
inductive RtpChannelLayout where
  | Mono
  | Stereo
deriving DecidableEq

/-- `TryFrom<u8> for RtpChannelLayout`: only 1 (mono) and 2 (stereo). -/
def RtpChannelLayout.tryFrom (v : Nat) : Except OggOpusError RtpChannelLayout :=
  match v with
  | 1 => .ok .Mono
  | 2 => .ok .Stereo
  | _ => .error .InvalidChannelLayout

/-- `TryFrom<u8> for VorbisChannelLayout`, represented by its channel count
discriminant: 1..=8 are the eight named layouts, all else rejected. -/
def vorbisLayoutTryFrom (v : Nat) : Except OggOpusError Nat :=
  if 1 ≤ v ∧ v ≤ 8 then .ok v else .error .InvalidChannelLayout

/-- The thirty channel-count discriminants of `AmbisonicsChannelLayout`
(orders 0 through 14, plain and with a non-diegetic stereo stream). -/
def ambisonicsAllowed : List Nat :=
  [1, 3, 4, 6, 9, 11, 16, 18, 25, 27, 36, 38, 49, 51, 64, 66, 81, 83,
   100, 102, 121, 123, 144, 146, 169, 171, 196, 198, 225, 227]

/-- `TryFrom<u8> for AmbisonicsChannelLayout`, represented by its channel
count discriminant. -/
def ambisonicsLayoutTryFrom (v : Nat) : Except OggOpusError Nat :=
  if v ∈ ambisonicsAllowed then .ok v else .error .InvalidChannelLayout

/-- `StandardMappingTable`: stream count, coupled count, and the
channel-to-stream mapping bytes. -/
structure StandardMappingTable where
  streams : Nat
  coupled : Nat
  mapping : List Nat
deriving DecidableEq

/-- `StandardMappingTable::new`: bytes 0 and 1 are the stream and coupled
counts; reject zero streams, more coupled than streams, or
`streams + coupled > 255`; the mapping is bytes `2 .. 2 + channels`. -/
def StandardMappingTable.new (channels : Nat) (table : List Nat) :
    Except OggOpusError StandardMappingTable :=
  match table.get? 0, table.get? 1 with
  | some streams, some coupled =>
    if streams = 0 ∨ streams < coupled ∨ 255 < streams + coupled then
      .error .InvalidChannelLayout
    else
      match sliceGet table 2 (2 + channels) with
      | none => .error .UnexpectedEof
      | some mapping => .ok { streams := streams, coupled := coupled, mapping := mapping }
  | _, _ => .error .UnexpectedEof

/-- `AmbisonicsMappingTable`: stream count, coupled count, and the demixing
matrix as little-endian u16 values. -/
structure AmbisonicsMappingTable where
  streams : Nat
  coupled : Nat
  matrix : List Nat
deriving DecidableEq

/-- Exact two-byte chunking of the demixing matrix bytes
(`chunks_exact(2).map(LE::read_u16)`). -/
def chunksLE16 : List Nat → List Nat
  | b0 :: b1 :: rest => le16 [b0, b1] :: chunksLE16 rest
  | _ => []

/-- `AmbisonicsMappingTable::new`: same validity checks as the standard
table; the matrix is bytes `2 .. 2 + 2 * channels` read as LE u16 pairs. -/
def AmbisonicsMappingTable.new (channels : Nat) (table : List Nat) :
    Except OggOpusError AmbisonicsMappingTable :=
  match table.get? 0, table.get? 1 with
  | some streams, some coupled =>
    if streams = 0 ∨ streams < coupled ∨ 255 < streams + coupled then
      .error .InvalidChannelLayout
    else
      match sliceGet table 2 (2 + 2 * channels) with
      | none => .error .UnexpectedEof
      | some bytes => .ok { streams := streams, coupled := coupled, matrix := chunksLE16 bytes }
  | _, _ => .error .UnexpectedEof

/-- `ChannelMapping`: the five channel mapping families (Vorbis and
Ambisonics layouts represented by their channel-count discriminants). -/
inductive ChannelMapping where
  | RTP (layout : RtpChannelLayout)
  | Vorbis (layout : Nat) (mapping : StandardMappingTable)
  | AmbisonicsIndividual (layout : Nat) (mapping : StandardMappingTable)
  | AmbisonicsDemixed (layout : Nat) (mapping : AmbisonicsMappingTable)
  | Discrete (channels : Nat) (mapping : StandardMappingTable)
deriving DecidableEq

/-- `ChannelMapping::new`: dispatch on the mapping family byte (0, 1, 2, 3,
255); anything else is `InvalidChannelLayout`. -/
def ChannelMapping.new (channels family : Nat) (table : List Nat) :
    Except OggOpusError ChannelMapping :=
  match family with
  | 0 => (RtpChannelLayout.tryFrom channels).map ChannelMapping.RTP
  | 1 => do
    let layout ← vorbisLayoutTryFrom channels
    let mapping ← StandardMappingTable.new channels table
    .ok (.Vorbis layout mapping)
  | 2 => do
    let layout ← ambisonicsLayoutTryFrom channels
    let mapping ← StandardMappingTable.new channels table
    .ok (.AmbisonicsIndividual layout mapping)
  | 3 => do
    let layout ← ambisonicsLayoutTryFrom channels
    let mapping ← AmbisonicsMappingTable.new channels table
    .ok (.AmbisonicsDemixed layout mapping)
  | 255 => do
    let mapping ← StandardMappingTable.new channels table
    .ok (.Discrete channels mapping)
  | _ => .error .InvalidChannelLayout

/-- `ChannelMapping::streams`: the RTP family always has one stream, all
other families read their table. -/
def ChannelMapping.streams : ChannelMapping → Nat
  | .RTP _ => 1
  | .Vorbis _ m => m.streams
  | .AmbisonicsIndividual _ m => m.streams
  | .AmbisonicsDemixed _ m => m.streams
  | .Discrete _ m => m.streams

/-- The magic bytes `"OpusHead"`. -/
def opusHeadMagic : List Nat := [79, 112, 117, 115, 72, 101, 97, 100]

/-- The magic bytes `"OpusTags"`. -/
def opusTagsMagic : List Nat := [79, 112, 117, 115, 84, 97, 103, 115]

/-- Parsed `IdHeader`: version byte, channel mapping, pre-skip, input sample
rate (`None` encodes the source's `NonZeroU32` for a zero field), output
gain (Q7.8 dB as a signed 16-bit value). -/
structure IdHeader where
  version : Nat
  channels : ChannelMapping
  pre_skip : Nat
  sample_rate : Option Nat
  output_gain : Int
deriving DecidableEq

/-- `IdHeader::new`: check the `"OpusHead"` magic (bytes 0..8) and a zero
major version (high nibble of byte 8), then build the header with the
source's field reads: channel count from byte 9, mapping family from byte
18, mapping table from byte 19 on, `pre_skip` from bytes 10..=11 (LE u16),
`input_sample_rate` from bytes 12..=15 (LE u32), and `output_gain` from
bytes 15..=16 (LE i16) — the slice bounds exactly as written in the source. -/
def IdHeader.new (data : List Nat) : Except OggOpusError IdHeader :=
  match sliceGet data 0 8 with
  | none => .error .UnexpectedEof
  | some magic =>
    if magic = opusHeadMagic then
      match data.get? 8 with
      | none => .error .UnexpectedEof
      | some version =>
        if version &&& 0b11110000 = 0 then do
          let ch ← match data.get? 9 with
            | none => .error OggOpusError.UnexpectedEof
            | some ch => .ok ch
          let family ← match data.get? 18 with
            | none => .error OggOpusError.UnexpectedEof
            | some family => .ok family
          let table ← match sliceFrom data 19 with
            | none => .error OggOpusError.UnexpectedEof
            | some table => .ok table
          let channels ← ChannelMapping.new ch family table
          let psBytes ← match sliceGet data 10 12 with
            | none => .error OggOpusError.UnexpectedEof
            | some l => .ok l
          let srBytes ← match sliceGet data 12 16 with
            | none => .error OggOpusError.UnexpectedEof
            | some l => .ok l
          let ogBytes ← match sliceGet data 15 17 with
            | none => .error OggOpusError.UnexpectedEof
            | some l => .ok l
          let sr := le32 srBytes
          .ok { version := version
                channels := channels
                pre_skip := le16 psBytes
                sample_rate := if sr = 0 then none else some sr
                output_gain := leI16 ogBytes }
        else .error .UnsupportedVersion
    else .error .BadMagic

/-- Parsed `CommentHeader`: the retained comment bytes, the declared comment
count, and the vendor bytes (the source converts them to a lossy `String`
for display only; the model keeps the raw bytes). -/
structure CommentHeader where
  comments : List Nat
  comments_num : Nat
  vendor : List Nat
deriving DecidableEq

/-- `CommentHeader::new`: reject packets above `PACKET_LEN_MAX = 125829120`
bytes (`DenialOfService`), check the `"OpusTags"` magic, read the vendor
length (bytes 8..12, LE u32) and vendor bytes, then the comment count; the
retained comment bytes start after the count and are truncated at
`COMMENTS_IGNORE_LEN = 61440` for oversized packets (where the source's
plain slice `&data[comments_start + 4 .. 61440]` would panic if the vendor
ran past the cutoff; no input below the cutoff reaches that corner). -/
def CommentHeader.new (data : List Nat) : Except OggOpusError CommentHeader :=
  if 125829120 < data.length then .error .DenialOfService
  else
    match sliceGet data 0 8 with
    | none => .error .UnexpectedEof
    | some magic =>
      if magic = opusTagsMagic then do
        let vlBytes ← match sliceGet data 8 12 with
          | none => .error OggOpusError.UnexpectedEof
          | some l => .ok l
        let comments_start := 12 + le32 vlBytes
        let vendor ← match sliceGet data 12 comments_start with
          | none => .error OggOpusError.UnexpectedEof
          | some l => .ok l
        let ncBytes ← match sliceGet data comments_start (comments_start + 4) with
          | none => .error OggOpusError.UnexpectedEof
          | some l => .ok l
        let comments :=
          if data.length ≤ 61440 then data.drop (comments_start + 4)
          else (data.take 61440).drop (comments_start + 4)
        .ok { comments := comments, comments_num := le32 ncBytes, vendor := vendor }
      else .error .BadMagic

/-- Byte-level UTF-8 validity (worker with fuel; every step consumes at least
one byte, so fuel equal to the list length is exact). Mirrors the encoding
accepted by Rust's `str::from_utf8` per RFC 3629: ASCII, the two- to
four-byte sequences with their continuation ranges, the tightened ranges
after 0xE0/0xED/0xF0/0xF4, and nothing at or above 0xF5. -/
def utf8ValidGo : Nat → List Nat → Bool
  | _, [] => true
  | 0, _ :: _ => false
  | fuel + 1, b :: rest =>
    if b < 0x80 then utf8ValidGo fuel rest
    else if b < 0xC2 then false
    else if b ≤ 0xDF then
      match rest with
      | c1 :: r => decide (0x80 ≤ c1 ∧ c1 ≤ 0xBF) && utf8ValidGo fuel r
      | [] => false
    else if b ≤ 0xEF then
      match rest with
      | c1 :: c2 :: r =>
        let lo := if b = 0xE0 then 0xA0 else 0x80
        let hi := if b = 0xED then 0x9F else 0xBF
        decide (lo ≤ c1 ∧ c1 ≤ hi) && decide (0x80 ≤ c2 ∧ c2 ≤ 0xBF) &&
          utf8ValidGo fuel r
      | _ => false
    else if b ≤ 0xF4 then
      match rest with
      | c1 :: c2 :: c3 :: r =>
        let lo := if b = 0xF0 then 0x90 else 0x80
        let hi := if b = 0xF4 then 0x8F else 0xBF
        decide (lo ≤ c1 ∧ c1 ≤ hi) && decide (0x80 ≤ c2 ∧ c2 ≤ 0xBF) &&
          decide (0x80 ≤ c3 ∧ c3 ≤ 0xBF) && utf8ValidGo fuel r
      | _ => false
    else false

/-- Validity of a byte sequence under Rust's `str::from_utf8`. -/
def utf8Valid (l : List Nat) : Bool :=
  utf8ValidGo l.length l

/-- Byte index of the first `'='` (0x3D) in a comment, the model of
`str::find('=')` (in valid UTF-8 the byte 0x3D only ever encodes `'='`). -/
def findEq (l : List Nat) : Option Nat :=
  l.findIdx? (fun b => b == 61)

/-- State of the `Comments` iterator: the comment bytes, the declared count,
the number of entries consumed so far, and the byte cursor. -/
structure Comments where
  comments : List Nat
  comments_num : Nat
  comments_read : Nat
  pos : Nat
deriving DecidableEq

/-- The cursor state after `Comments::next` has booked an entry of body
length `n`: the cursor moves past the four length bytes and the body, and
the consumed-entry counter increments. -/
def Comments.skip (c : Comments) (n : Nat) : Comments :=
  { c with pos := c.pos + 4 + n, comments_read := c.comments_read + 1 }

/-- `Comments::next` (`impl Iterator for Comments`): while the cursor is in
range and entries remain, read the four-byte LE length, advance the cursor
past the entry and bump the counter *before* parsing (the source comments
that this makes a later `next` call return the following entry after a
parse failure), then yield the entry split at its first `'='` provided the
bytes are valid UTF-8 — failures of the length read leave the state
untouched, all later failures return `none` with the cursor already moved
past the entry. The returned pair is (name bytes, value bytes). -/
def Comments.next (c : Comments) : Option (List Nat × List Nat) × Comments :=
  if c.pos < c.comments.length ∧ c.comments_read < c.comments_num then
    let cmt_start := c.pos + 4
    match sliceGet c.comments c.pos cmt_start with
    | none => (none, c)
    | some lenBytes =>
      let cmt_len := le32 lenBytes
      let c' := c.skip cmt_len
      match sliceGet c.comments cmt_start (cmt_start + cmt_len) with
      | none => (none, c')
      | some bytes =>
        if utf8Valid bytes then
          match findEq bytes with
          | none => (none, c')
          | some i => (some (bytes.take i, bytes.drop (i + 1)), c')
        else (none, c')
  else (none, c)

/-- Driving the `Comments` iterator: keep calling `next`, collecting the
yielded entries, until a call makes no progress at all (the in-range
condition fails, or a failed length read returns the state unchanged) or the
fuel runs out. A `none` that did advance the cursor — a malformed entry —
does not stop the run, matching the source's stated contract that calling
`next` again continues with the following entry. -/
def Comments.run : Nat → Comments → List (List Nat × List Nat)
  | 0, _ => []
  | fuel + 1, c =>
    match c.next with
    | (some x, c') => x :: Comments.run fuel c'
    | (none, c') => if c' = c then [] else Comments.run fuel c'

/-- An Ogg packet as surfaced by the external `ogg` crate's `PacketReader`:
its payload plus the three paging flags the reader layer consults. The
page-level framer is out of scope for the crate (an external library), so
the reader input is this abstract packet sequence. -/
structure OggPacket where
  data : List Nat
  first_in_stream : Bool
  first_in_page : Bool
  last_in_page : Bool
deriving DecidableEq

/-- `OggOpusReader::new` over the abstract packet sequence: read the first
packet, require `first_in_stream && first_in_page && last_in_page` and parse
its payload as an `IdHeader`; read the second packet, and — exactly as the
source is written — test `id_packet.first_in_page() && id_packet.last_in_page()`
(the first packet's flags again, not the comment packet's) before parsing
the second payload as a `CommentHeader`. An exhausted packet source is the
`ogg` crate's read error. Returns both headers and the remaining packets. -/
def OggOpusReader.new (packets : List OggPacket) :
    Except Error (IdHeader × CommentHeader × List OggPacket) :=
  match packets with
  | [] => .error .Ogg
  | id_packet :: rest =>
    if id_packet.first_in_stream && id_packet.first_in_page && id_packet.last_in_page then
      match IdHeader.new id_packet.data with
      | .error e => .error (.OggOpus e)
      | .ok id_header =>
        match rest with
        | [] => .error .Ogg
        | comments_packet :: rest2 =>
          if id_packet.first_in_page && id_packet.last_in_page then
            match CommentHeader.new comments_packet.data with
            | .error e => .error (.OggOpus e)
            | .ok comments => .ok (id_header, comments, rest2)
          else .error (.OggOpus .BadPaging)
    else .error (.OggOpus .BadPaging)

/-! ## Concrete inputs used by the theorems -/

/-- The specification's code 3 CBR test vector: TOC 0xFB (config 31, mono,
code 3), frame count byte 0x43 (CBR, padding bit set, 3 frames), padding
size byte 0x02, three 0xAA frame bytes, two zero padding bytes. -/
def c1Input : List Nat := [0xFB, 0x43, 0x02, 0xAA, 0xAA, 0xAA, 0x00, 0x00]

/-- A two-stream container payload: a self-delimited code 0 packet
(TOC 0x00, length code 1, frame [0xAA]) followed by an internally framed
code 0 packet (TOC 0x00, frame [0xBB]). -/
def c2Input : List Nat := [0x00, 0x01, 0xAA, 0x00, 0xBB]

/-- An identification header with version 1, 2 channels, pre-skip 312,
input sample rate 0x01000000 (a nonzero byte at offset 15), output gain
bytes [0x02, 0x03] at offsets 16..=17, and mapping family 0. -/
def c3Input : List Nat :=
  opusHeadMagic ++ [1, 2, 0x38, 0x01, 0, 0, 0, 1, 2, 3, 0]

/-- The specification's identification header example: version 1,
2 channels, pre-skip 312, input sample rate 48000, output gain 0,
mapping family 0. -/
def specIdInput : List Nat :=
  opusHeadMagic ++ [1, 2, 0x38, 0x01, 0x80, 0xBB, 0, 0, 0, 0, 0]

/-- An internally framed code 3 CBR packet (TOC 0x03: config 0, mono,
code 3; frame count byte 0x01: CBR, no padding, one frame) whose single
frame is 1276 bytes long — one byte over the RFC 6716 R2 limit. -/
def c5Input : List Nat := 3 :: 1 :: List.replicate 1276 0

/-- A correctly paged identification header packet: first in stream, first
and last in its page. -/
def goodIdPacket : OggPacket :=
  { data := specIdInput, first_in_stream := true, first_in_page := true, last_in_page := true }

/-- A minimal valid comment header payload: `"OpusTags"`, vendor length 0,
comment count 0. -/
def minimalTags : List Nat := opusTagsMagic ++ [0, 0, 0, 0, 0, 0, 0, 0]

/-- A comment header packet that is neither first nor last in its page —
paging the construction is required to reject. -/
def badPagedCommentPacket : OggPacket :=
  { data := minimalTags, first_in_stream := false, first_in_page := false, last_in_page := false }

/-- A comment blob with two declared entries: a 1-byte entry [0xFF]
(invalid UTF-8) followed by the 3-byte entry "A=B". -/
def c7Blob : List Nat := [1, 0, 0, 0, 0xFF, 3, 0, 0, 0, 65, 61, 66]

/-- The fresh iterator state over `c7Blob`. -/
def c7State : Comments :=
  { comments := c7Blob, comments_num := 2, comments_read := 0, pos := 0 }

/-! ## Theorems -/

/-- Helper: one normalization step masks `value` down to 31 bits. -/
theorem normStep_value_le (d : RangeDecoder) : (normStep d).value ≤ 2147483647 :=
  Nat.and_le_right

/-- Helper: one normalization step shifts `range` up by one byte in `u32`. -/
theorem normStep_range (d : RangeDecoder) :
    (normStep d).range = (d.range <<< 8) % 2 ^ 32 :=
  rfl

/-- Helper: starting from the constructor's `range = 128`, the
renormalization loop runs exactly three iterations. -/
theorem normalize_from_new (d : RangeDecoder) (h : d.range = 128) :
    RangeDecoder.normalize d = normStep (normStep (normStep d)) := by
  have h1 : (normStep d).range = 32768 := by
    rw [normStep_range, h]
    decide
  have h2 : (normStep (normStep d)).range = 8388608 := by
    rw [normStep_range, h1]
    decide
  unfold RangeDecoder.normalize
  unfold normalizeGo
  rw [if_pos (show d.range ≤ RANGE_MAX by rw [h]; decide)]
  unfold normalizeGo
  rw [if_pos (show (normStep d).range ≤ RANGE_MAX by rw [h1]; decide)]
  unfold normalizeGo
  rw [if_pos (show (normStep (normStep d)).range ≤ RANGE_MAX by rw [h2]; decide)]
  rfl

/-- C9: for every byte buffer `b` (including the empty buffer), the decoder
returned by `RangeDecoder::new(b)` satisfies `range > 2 ^ 23` and
`value < range` — in fact `range` is exactly `2 ^ 31` and `value` is masked
below it. -/
theorem C9_new_establishes_invariant (data : List Nat) :
    2 ^ 23 < (RangeDecoder.new data).range ∧
      (RangeDecoder.new data).value < (RangeDecoder.new data).range := by
  have hnew : RangeDecoder.new data =
      normStep (normStep (normStep (RangeDecoder.init data))) :=
    normalize_from_new _ rfl
  have hrange : (RangeDecoder.new data).range = 2147483648 := by
    rw [hnew, normStep_range, normStep_range, normStep_range,
        show (RangeDecoder.init data).range = 128 from rfl]
    decide
  refine ⟨by rw [hrange]; norm_num, ?_⟩
  rw [hrange, hnew]
  exact lt_of_le_of_lt (normStep_value_le _) (by norm_num)

/-- C8: for every decoder state and every representable `ft < 2 ^ 16`,
`decode(ft)` returns `None` exactly when `ft = 0` or `range / ft = 0`
(the Rust method borrows `&self`, so the state is never mutated), and
otherwise returns `ft − min(ft, value / (range / ft) + 1)` — the
`u16::try_from` overflow arm and the saturating increment collapse to that
single formula. -/
theorem C8_decode_formula (d : RangeDecoder) (ft : Nat) (h : ft < 65536) :
    d.decode ft =
      if ft = 0 ∨ d.range / ft = 0 then none
      else some (ft - min ft (d.value / (d.range / ft) + 1)) := by
  by_cases h0 : ft = 0
  · simp [RangeDecoder.decode, h0]
  · by_cases h1 : d.range / ft = 0
    · simp [RangeDecoder.decode, h0, h1]
    · simp only [RangeDecoder.decode, RangeDecoder.decode_inner, h0, h1, if_false,
        false_or, ite_false, Option.some.injEq]
      by_cases h2 : d.value / (d.range / ft) < 65536
      · simp only [h2, ite_true]
        simp only [Nat.min_def]
        split_ifs <;> omega
      · simp only [h2, ite_false]
        simp only [Nat.min_def]
        split_ifs <;> omega

/-- Witness for C8 at the concrete decoder over the empty buffer with
`ft = 5`. -/
theorem C8_decode_formula_witness :
    RangeDecoder.decode (RangeDecoder.new []) 5 = some 0 := by
  have h := C8_decode_formula (RangeDecoder.new []) 5 (by norm_num)
  rw [h]
  decide

/-- C10: for every decoder state, `decode_bin(ftb)` returns `None` for every
`ftb ≥ 16` — not only for `ftb ≥ 32` — because `1u16.checked_shl(ftb)` has
no representable result (the Rust method borrows `&self`, so the state is
never mutated). -/
theorem C10_decode_bin_large_ftb (d : RangeDecoder) (ftb : Nat) (h : 16 ≤ ftb) :
    d.decode_bin ftb = none := by
  by_cases h32 : 32 ≤ ftb
  · simp [RangeDecoder.decode_bin, h32]
  · simp [RangeDecoder.decode_bin, h32, h, ite_self]

/-- Witness for C10 at a decoder whose `range >> 16` is nonzero
(`range = 2 ^ 31` after construction), with `ftb = 16`. -/
theorem C10_decode_bin_large_ftb_witness :
    16 ≤ 16 ∧ RangeDecoder.decode_bin (RangeDecoder.new [0xFF, 0x7F, 0, 0x7F, 0xFF]) 16 = none :=
  ⟨by norm_num, C10_decode_bin_large_ftb _ 16 (by norm_num)⟩

/-- C4 is refuted by the source: `RangeDecoder::decode_raw` and
`RangeDecoder::decode_raw_bits` are bare `unimplemented!()` stubs, so both
panic on every decoder state and every argument — no parse path through them
is total. -/
theorem C4_decode_raw_always_panics :
    ∀ (d : RangeDecoder) (ft bits : Nat),
      d.decode_raw ft = PanicOr.panicked ∧ d.decode_raw_bits bits = PanicOr.panicked :=
  fun _ _ _ => ⟨rfl, rfl⟩

/-- C1 is refuted by the source: on the specification's own test vector the
CBR divisibility check divides the payload length *including* the two
trailing padding bytes (5 % 3 ≠ 0), so `Packet::new` returns
`UnevenFrameLengths` instead of three one-byte frames. -/
theorem C1_cbr_padding_example_rejected :
    Packet.new c1Input = .error (.MalformedPacket .UnevenFrameLengths) := by
  rfl

set_option maxRecDepth 10000 in
/-- C5 is refuted by the source: the internally framed code 3 paths never
apply the 1275-byte limit, so a CBR packet with a single 1276-byte frame
parses successfully instead of failing with `OverlongFrame`. -/
theorem C5_code3_overlong_frame_accepted :
    (Packet.new c5Input).map (fun p => p.frames.map List.length) = .ok [1276] := by
  rfl

/-- C2 is refuted by the source: `Multistream::new` stores the packets in
encoded order, but `Multistream::frames` reverses them before flattening,
so the frame of packet 1 ([0xBB]) is yielded before the frame of packet 0
([0xAA]). -/
theorem C2_multistream_frames_reversed :
    Multistream.new c2Input 2 =
      .ok [{ config := { mode := .Silk, bandwidth := .Narrowband, frame_size := .Ten },
             stereo := false, frames := [[0xAA]] },
           { config := { mode := .Silk, bandwidth := .Narrowband, frame_size := .Ten },
             stereo := false, frames := [[0xBB]] }] ∧
    (Multistream.new c2Input 2).map Multistream.frames =
      .ok [{ config := { mode := .Silk, bandwidth := .Narrowband, frame_size := .Ten },
             stereo := false, data := [0xBB] },
           { config := { mode := .Silk, bandwidth := .Narrowband, frame_size := .Ten },
             stereo := false, data := [0xAA] }] := by
  exact ⟨by rfl, by rfl⟩

/-- C3 is refuted by the source: `IdHeader::new` reads `output_gain` from
bytes 15..=16 — overlapping the last byte of `input_sample_rate` — instead
of bytes 16..=17, so a header whose byte 15 is nonzero parses to gain 513
where the claim's formula gives 770; on the specification's example (whose
byte 15 happens to be zero) the two coincide and parsing yields the
expected header. -/
theorem C3_output_gain_wrong_offset :
    IdHeader.new c3Input =
      .ok { version := 1, channels := .RTP .Stereo, pre_skip := 312,
            sample_rate := some 16777216, output_gain := 513 } ∧
    leI16 [c3Input.getD 16 0, c3Input.getD 17 0] = 770 ∧
    IdHeader.new specIdInput =
      .ok { version := 1, channels := .RTP .Stereo, pre_skip := 312,
            sample_rate := some 48000, output_gain := 0 } := by
  exact ⟨by rfl, by rfl, by rfl⟩

/-- C6 is refuted by the source: `OggOpusReader::new` re-tests the *first*
packet's paging flags before parsing the comment header, so a second packet
that is neither first nor last in its page is accepted without
`BadPaging`. -/
theorem C6_comment_paging_not_checked :
    badPagedCommentPacket.first_in_page = false ∧
    badPagedCommentPacket.last_in_page = false ∧
    OggOpusReader.new [goodIdPacket, badPagedCommentPacket] =
      .ok ({ version := 1, channels := .RTP .Stereo, pre_skip := 312,
             sample_rate := some 48000, output_gain := 0 },
           { comments := [], comments_num := 0, vendor := [] }, []) := by
  exact ⟨rfl, rfl, by rfl⟩

/-- C7: when the `Comments` iterator meets an in-bounds entry whose bytes
are invalid UTF-8 or contain no `'='`, that call yields no item but books
the entry (cursor past it, counter incremented), and the rest of the run is
exactly the run from the booked state — every well-formed entry after the
malformed one is still yielded and no error is ever produced. -/
theorem C7_malformed_comment_skipped (c : Comments) (lenBytes bs : List Nat)
    (hpos : c.pos < c.comments.length)
    (hread : c.comments_read < c.comments_num)
    (hlen : sliceGet c.comments c.pos (c.pos + 4) = some lenBytes)
    (hbody : sliceGet c.comments (c.pos + 4) (c.pos + 4 + le32 lenBytes) = some bs)
    (hbad : utf8Valid bs = false ∨ findEq bs = none) :
    c.next = (none, c.skip (le32 lenBytes)) ∧
      ∀ fuel : Nat, Comments.run (fuel + 1) c = Comments.run fuel (c.skip (le32 lenBytes)) := by
  have hnext : c.next = (none, c.skip (le32 lenBytes)) := by
    rcases hbad with hu | hf
    · simp [Comments.next, hpos, hread, hlen, hbody, hu]
    · by_cases hu : utf8Valid bs
      · simp [Comments.next, hpos, hread, hlen, hbody, hu, hf]
      · simp [Comments.next, hpos, hread, hlen, hbody, hu]
  have hne : ¬ c.skip (le32 lenBytes) = c := by
    intro hEq
    have := congrArg Comments.comments_read hEq
    simp [Comments.skip] at this
  refine ⟨hnext, fun fuel => ?_⟩
  simp only [Comments.run]
  rw [hnext]
  simp [hne]

/-- Witness for C7 on `c7Blob`: the invalid-UTF-8 first entry is skipped and
the run continues from the booked state. -/
theorem C7_malformed_comment_skipped_witness :
    c7State.next = (none, c7State.skip 1) ∧
      Comments.run 3 c7State = Comments.run 2 (c7State.skip 1) := by
  have h := C7_malformed_comment_skipped c7State [1, 0, 0, 0] [0xFF]
    (by decide) (by decide) (by decide) (by decide) (Or.inl (by decide))
  exact ⟨h.1, h.2 2⟩

end Opera
